import Mathlib

/-!
Verification development for the search-rag repository.

The definitions below are shallow embeddings of the Python code in
src/apify_rag/client.py, src/app.py and src/search_by_username.py.
Pure string manipulation is modelled directly; the HTTP layer is modelled
by passing the upstream response as an explicit value; exceptions become
Except; Python dicts with optional keys become structures of Option fields.
-/

/-! ## String helpers

Python substring membership (the expression pat in s) and the specific
regular expressions used by search_for_person, modelled as executable
scanners over lists of characters. -/

/-- Does the character list start with the given pattern of characters? -/
def startsWithChars : List Char → List Char → Bool
  | [], _ => true
  | _ :: _, [] => false
  | p :: ps, c :: cs => p == c && startsWithChars ps cs

/-- Does the pattern occur as a contiguous substring of the character list?
Models the Python expression pat in s. -/
def charsContain (pat : List Char) : List Char → Bool
  | [] => startsWithChars pat []
  | c :: cs => startsWithChars pat (c :: cs) || charsContain pat cs

/-- Substring containment on strings: models the Python expression pat in s. -/
def containsStr (s pat : String) : Bool :=
  charsContain pat.data s.data

/-- Consume the literal character sequence lit from the front of cs,
returning the remainder, or none when cs does not start with lit. -/
def dropLit : List Char → List Char → Option (List Char)
  | [], cs => some cs
  | _ :: _, [] => none
  | l :: ls, c :: cs => if l == c then dropLit ls cs else none

/-- Match one of the literal domain alternatives at the front of cs,
in order, returning the matched domain and the remainder.  Models the
regex alternation (twitter.com|x.com) and the single-domain cases. -/
def matchDomains (doms : List String) (cs : List Char) : Option (String × List Char) :=
  match doms with
  | [] => none
  | d :: ds =>
    match dropLit d.data cs with
    | some rest => some (d, rest)
    | none => matchDomains ds cs

/-- After the scheme has been consumed: match the optional www. part, one of
the domain alternatives, a slash, and a non-empty greedy run of characters
satisfying ok (the character class of the handle group).  Returns the
matched domain and the handle.  The only backtracking the source regexes
can perform here is un-consuming the optional www., and since no domain
alternative starts with the letter w that branch never succeeds after
www. has been seen; the deterministic order below is therefore faithful. -/
def matchAfterScheme (doms : List String) (ok : Char → Bool) (cs : List Char) :
    Option (String × String) :=
  let domPart :=
    match dropLit "www.".data cs with
    | some rest =>
      match matchDomains doms rest with
      | some dr => some dr
      | none => matchDomains doms cs
    | none => matchDomains doms cs
  match domPart with
  | none => none
  | some (d, rest) =>
    match dropLit "/".data rest with
    | none => none
    | some rest2 =>
      let h := rest2.takeWhile ok
      if h.isEmpty then none else some (d, String.mk h)

/-- Try to match one of the three social-link regexes of search_for_person
anchored at the current position: https?:// then the optional www., a
domain alternative, a slash and the handle class. -/
def trySocialAt (doms : List String) (ok : Char → Bool) (cs : List Char) :
    Option (String × String) :=
  match dropLit "https://".data cs with
  | some rest => matchAfterScheme doms ok rest
  | none =>
    match dropLit "http://".data cs with
    | some rest => matchAfterScheme doms ok rest
    | none => none

/-- Leftmost match of the social-link pattern in the character list: models
taking element 0 of the list re.findall returns. -/
def findSocial (doms : List String) (ok : Char → Bool) : List Char → Option (String × String)
  | [] => none
  | c :: cs =>
    match trySocialAt doms ok (c :: cs) with
    | some r => some r
    | none => findSocial doms ok cs

/-- Character class of the X/Twitter handle group [a-zA-Z0-9_]. -/
def xHandleChar (c : Char) : Bool :=
  c.isAlpha || c.isDigit || c == '_'

/-- Character class of the Instagram handle group [a-zA-Z0-9_.]. -/
def igHandleChar (c : Char) : Bool :=
  c.isAlpha || c.isDigit || c == '_' || c == '.'

/-- Character class of the Facebook handle group [a-zA-Z0-9.]. -/
def fbHandleChar (c : Char) : Bool :=
  c.isAlpha || c.isDigit || c == '.'

/-- First X/Twitter link reconstructed from free text content, as in
search_for_person: the first findall match of
https?://(www.)?(twitter.com|x.com)/handle rebuilt as
https://domain/handle. -/
def xFromContent (content : String) : Option String :=
  match findSocial ["twitter.com", "x.com"] xHandleChar content.data with
  | some (dom, user) => some ("https://" ++ dom ++ "/" ++ user)
  | none => none

/-- First Instagram link reconstructed from free text content, rebuilt as
https://instagram.com/handle. -/
def igFromContent (content : String) : Option String :=
  match findSocial ["instagram.com"] igHandleChar content.data with
  | some (_, user) => some ("https://instagram.com/" ++ user)
  | none => none

/-- First Facebook link reconstructed from free text content, rebuilt as
https://facebook.com/handle. -/
def fbFromContent (content : String) : Option String :=
  match findSocial ["facebook.com"] fbHandleChar content.data with
  | some (_, user) => some ("https://facebook.com/" ++ user)
  | none => none

/-! ## Data model of search results and formatted output -/

/-- The metadata sub-dictionary of an upstream result.  A field is none
when the corresponding key is absent. -/
structure ResultMetadata where
  url : Option String
  title : Option String
deriving DecidableEq, Repr

/-- One upstream search result dictionary.  metadata is none when the
result has no metadata key; markdown is none when it has no markdown key. -/
structure SearchResult where
  metadata : Option ResultMetadata
  markdown : Option String
deriving DecidableEq, Repr

/-- One entry of the sources list built by search_for_person. -/
structure Source where
  url : String
  title : String
deriving DecidableEq, Repr

/-- The social_links dictionary of the formatted results; a slot is none
exactly when the Python value is None. -/
structure SocialLinks where
  x_twitter : Option String
  instagram : Option String
  facebook : Option String
deriving DecidableEq, Repr

/-- The formatted results dictionary built by search_for_person. -/
structure FormattedResults where
  query : String
  person_name : String
  sources : List Source
  content : List String
  social_links : SocialLinks
deriving DecidableEq, Repr

/-- The metadata url of a result when both the metadata key and its url
key are present: the guard metadata in result and url in result[metadata]. -/
def metaUrl (r : SearchResult) : Option String :=
  r.metadata.bind ResultMetadata.url

/-- Direct-URL condition for the X slot: twitter.com/ in url or x.com/ in url. -/
def xUrlHit (url : String) : Bool :=
  containsStr url "twitter.com/" || containsStr url "x.com/"

/-- Direct-URL condition for the Instagram slot: instagram.com/ in url. -/
def igUrlHit (url : String) : Bool :=
  containsStr url "instagram.com/"

/-- Direct-URL condition for the Facebook slot: facebook.com/ in url. -/
def fbUrlHit (url : String) : Bool :=
  containsStr url "facebook.com/"

/-- First half of one loop iteration of search_for_person: when the result
carries metadata with a url key, append the source entry and run the
direct-URL substring checks, which assign the matching slot
unconditionally (if / elif / elif with no emptiness guard). -/
def sourceCheck (st : FormattedResults) (r : SearchResult) : FormattedResults :=
  match r.metadata with
  | none => st
  | some m =>
    match m.url with
    | none => st
    | some url =>
      let title := m.title.getD ""
      let st1 := { st with sources := st.sources ++ [⟨url, title⟩] }
      if xUrlHit url then
        { st1 with social_links := { st1.social_links with x_twitter := some url } }
      else if igUrlHit url then
        { st1 with social_links := { st1.social_links with instagram := some url } }
      else if fbUrlHit url then
        { st1 with social_links := { st1.social_links with facebook := some url } }
      else st1

/-- The X block of the content part of the loop: if not
social_links[x_twitter], look for the first regex match in the content and
assign it when found. -/
def xContentBlock (content : String) (st : FormattedResults) : FormattedResults :=
  if st.social_links.x_twitter.isNone then
    match xFromContent content with
    | some u => { st with social_links := { st.social_links with x_twitter := some u } }
    | none => st
  else st

/-- The Instagram block of the content part of the loop. -/
def igContentBlock (content : String) (st : FormattedResults) : FormattedResults :=
  if st.social_links.instagram.isNone then
    match igFromContent content with
    | some u => { st with social_links := { st.social_links with instagram := some u } }
    | none => st
  else st

/-- The Facebook block of the content part of the loop. -/
def fbContentBlock (content : String) (st : FormattedResults) : FormattedResults :=
  if st.social_links.facebook.isNone then
    match fbFromContent content with
    | some u => { st with social_links := { st.social_links with facebook := some u } }
    | none => st
  else st

/-- Second half of one loop iteration of search_for_person: when the result
carries a markdown key, append the content and run the three guarded
regex blocks in order (X, then Instagram, then Facebook). -/
def contentCheck (st : FormattedResults) (r : SearchResult) : FormattedResults :=
  match r.markdown with
  | none => st
  | some content =>
    fbContentBlock content (igContentBlock content (xContentBlock content
      { st with content := st.content ++ [content] }))

/-- One full iteration of the extraction loop of search_for_person. -/
def processResult (st : FormattedResults) (r : SearchResult) : FormattedResults :=
  contentCheck (sourceCheck st r) r

/-- Initial formatted_results value of search_for_person. -/
def initResults (query name : String) : FormattedResults :=
  { query := query
    person_name := name
    sources := []
    content := []
    social_links := { x_twitter := none, instagram := none, facebook := none } }

/-- The extraction loop of search_for_person over the whole upstream result
sequence. -/
def formatSearchResults (query name : String) (results : List SearchResult) :
    FormattedResults :=
  results.foldl processResult (initResults query name)

/-! ## Client and Flask endpoints

The HTTP layer is modelled by passing the upstream Actor response as an
explicit value; raised exceptions become Except.error. -/

/-- The upstream Actor HTTP response as seen by
ApifyRagWebBrowserClient.search: status code, body text, and the parsed
JSON body (a list of result dictionaries) used when the status is 200. -/
structure HttpResponse where
  status : Nat
  text : String
  json : List SearchResult

/-- Response handling of ApifyRagWebBrowserClient.search: a 200 status
returns the parsed JSON unchanged, any other status raises an Exception
whose message carries the upstream status code and body text. -/
def clientSearch (resp : HttpResponse) : Except String (List SearchResult) :=
  if resp.status == 200 then Except.ok resp.json
  else Except.error ("Error " ++ toString resp.status ++ ": " ++ resp.text)

/-- Query construction of search_for_person: the focus_x_account branch,
then the truthiness test on additional_context, then the bare name. -/
def buildQuery (name additional_context : String) (focus_x_account : Bool) : String :=
  if focus_x_account then name ++ " X twitter account @"
  else if additional_context ≠ "" then name ++ " " ++ additional_context
  else name

/-- search_for_person: build the query, perform the search, and on success
run the extraction loop over the returned results.  A search failure
propagates as the raised exception. -/
def searchForPerson (resp : HttpResponse) (name additional_context : String)
    (focus_x_account : Bool) : Except String FormattedResults :=
  match clientSearch resp with
  | Except.error e => Except.error e
  | Except.ok results =>
    Except.ok (formatSearchResults (buildQuery name additional_context focus_x_account)
      name results)

/-- Body of a Flask response in app.py: either the error dictionary built
by jsonify on failure, or the jsonified success payload. -/
inductive RespBody where
  | errorMsg (msg : String)
  | person (r : FormattedResults)
  | raw (rs : List SearchResult)
deriving DecidableEq

/-- Outcome of one endpoint invocation: HTTP status, response body, and
whether the upstream Apify client was called at all. -/
structure EndpointResult where
  status : Nat
  body : RespBody
  upstreamCalled : Bool
deriving DecidableEq

/-- Parsed JSON body of a POST to /search; a field is none when the key is
absent.  The whole body is passed as none when there is no JSON body. -/
structure PersonRequestBody where
  name : Option String
  context : Option String
  max_results : Option Nat
deriving DecidableEq

/-- Parsed JSON body of a POST to /raw-search; a field is none when the
key is absent. -/
structure RawRequestBody where
  query : Option String
  max_results : Option Nat
  scraping_tool : Option String
  output_format : Option String
  request_timeout_secs : Option Nat
  dynamic_content_wait_secs : Option ℚ
  remove_cookie_warnings : Option Bool
  debug_mode : Option Bool
deriving DecidableEq

/-- The /search endpoint of app.py: reject a missing body or missing name
with a 400 error before any upstream call; otherwise call
search_for_person and map an exception to a 500 error response whose body
is only the error message. -/
def searchPersonEndpoint (data : Option PersonRequestBody) (upstream : HttpResponse) :
    EndpointResult :=
  match data with
  | none =>
    { status := 400
      body := RespBody.errorMsg "Please provide a \x27name\x27 in the request body"
      upstreamCalled := false }
  | some d =>
    match d.name with
    | none =>
      { status := 400
        body := RespBody.errorMsg "Please provide a \x27name\x27 in the request body"
        upstreamCalled := false }
    | some name =>
      match searchForPerson upstream name (d.context.getD "") false with
      | Except.ok result => { status := 200, body := RespBody.person result, upstreamCalled := true }
      | Except.error e => { status := 500, body := RespBody.errorMsg e, upstreamCalled := true }

/-- The /raw-search endpoint of app.py: reject a missing body or missing
query with a 400 error before any upstream call; otherwise call the client
search and on success jsonify the upstream result list unchanged; an
exception becomes a 500 error response whose body is only the error
message. -/
def rawSearchEndpoint (data : Option RawRequestBody) (upstream : HttpResponse) :
    EndpointResult :=
  match data with
  | none =>
    { status := 400
      body := RespBody.errorMsg "Please provide a \x27query\x27 in the request body"
      upstreamCalled := false }
  | some d =>
    match d.query with
    | none =>
      { status := 400
        body := RespBody.errorMsg "Please provide a \x27query\x27 in the request body"
        upstreamCalled := false }
    | some _ =>
      match clientSearch upstream with
      | Except.ok rs => { status := 200, body := RespBody.raw rs, upstreamCalled := true }
      | Except.error e => { status := 500, body := RespBody.errorMsg e, upstreamCalled := true }

/-! ## Snippet similarity and deduplication (search_by_username.py) -/

/-- Whitespace tokenisation as str.split() with no argument behaves:
split on runs of whitespace and discard empty pieces.  cur accumulates the
characters of the word currently being read, in reverse. -/
def pyWords (cur : List Char) : List Char → List String
  | [] => if cur.isEmpty then [] else [String.mk cur.reverse]
  | c :: cs =>
    if c.isWhitespace then
      if cur.isEmpty then pyWords [] cs
      else String.mk cur.reverse :: pyWords [] cs
    else pyWords (c :: cur) cs

/-- The set of lowercase words of a text: text.lower().split() taken as a
Python set.  Case lowering is per character, as Char.toLower behaves. -/
def lowerWords (text : String) : Finset String :=
  (pyWords [] (text.data.map Char.toLower)).toFinset

/-- is_similar_text of search_by_username.py: false when either text is
the empty string or has no words; otherwise compare the ratio of shared
words to the size of the smaller word set against the threshold, strictly.
The Python float division is modelled by exact rational division. -/
def is_similar_text (text1 text2 : String) (threshold : ℚ) : Bool :=
  if text1 = "" ∨ text2 = "" then false
  else
    let words1 := lowerWords text1
    let words2 := lowerWords text2
    if words1 = ∅ ∨ words2 = ∅ then false
    else
      let common_words := words1 ∩ words2
      let similarity : ℚ := (common_words.card : ℚ) / ((min words1.card words2.card : ℕ) : ℚ)
      decide (similarity > threshold)

/-- Retention rule of find_info_by_username: a new snippet is appended to
the retained list only when it is not similar (at the default threshold
0.7) to any previously retained snippet. -/
def dedupStep (retained : List String) (s : String) : List String :=
  if retained.any (fun info => is_similar_text s info (7/10)) then retained
  else retained ++ [s]

/-- Deduplication of a whole snippet sequence, processing snippets in
order through the retention rule of find_info_by_username. -/
def dedupSnippets (snips : List String) : List String :=
  snips.foldl dedupStep []

/-! ## Closed-form lemmas about the extraction loop -/

/-- Source entry contributed by one result: present exactly when both the
metadata key and its url key are present. -/
def sourceOf (r : SearchResult) : Option Source :=
  match r.metadata with
  | none => none
  | some m =>
    match m.url with
    | none => none
    | some url => some ⟨url, m.title.getD ""⟩

theorem xContentBlock_x (c : String) (st : FormattedResults) :
    (xContentBlock c st).social_links.x_twitter =
      match st.social_links.x_twitter with
      | some u => some u
      | none => xFromContent c := by
  unfold xContentBlock
  cases hx : st.social_links.x_twitter <;> cases hm : xFromContent c <;> simp [hx, hm]

theorem xContentBlock_ig (c : String) (st : FormattedResults) :
    (xContentBlock c st).social_links.instagram = st.social_links.instagram := by
  unfold xContentBlock
  cases hx : st.social_links.x_twitter <;> cases hm : xFromContent c <;> simp [hx, hm]

theorem xContentBlock_fb (c : String) (st : FormattedResults) :
    (xContentBlock c st).social_links.facebook = st.social_links.facebook := by
  unfold xContentBlock
  cases hx : st.social_links.x_twitter <;> cases hm : xFromContent c <;> simp [hx, hm]

theorem xContentBlock_sources (c : String) (st : FormattedResults) :
    (xContentBlock c st).sources = st.sources := by
  unfold xContentBlock
  cases hx : st.social_links.x_twitter <;> cases hm : xFromContent c <;> simp [hx, hm]

theorem xContentBlock_content (c : String) (st : FormattedResults) :
    (xContentBlock c st).content = st.content := by
  unfold xContentBlock
  cases hx : st.social_links.x_twitter <;> cases hm : xFromContent c <;> simp [hx, hm]

theorem igContentBlock_ig (c : String) (st : FormattedResults) :
    (igContentBlock c st).social_links.instagram =
      match st.social_links.instagram with
      | some u => some u
      | none => igFromContent c := by
  unfold igContentBlock
  cases hx : st.social_links.instagram <;> cases hm : igFromContent c <;> simp [hx, hm]

theorem igContentBlock_x (c : String) (st : FormattedResults) :
    (igContentBlock c st).social_links.x_twitter = st.social_links.x_twitter := by
  unfold igContentBlock
  cases hx : st.social_links.instagram <;> cases hm : igFromContent c <;> simp [hx, hm]

theorem igContentBlock_fb (c : String) (st : FormattedResults) :
    (igContentBlock c st).social_links.facebook = st.social_links.facebook := by
  unfold igContentBlock
  cases hx : st.social_links.instagram <;> cases hm : igFromContent c <;> simp [hx, hm]

theorem igContentBlock_sources (c : String) (st : FormattedResults) :
    (igContentBlock c st).sources = st.sources := by
  unfold igContentBlock
  cases hx : st.social_links.instagram <;> cases hm : igFromContent c <;> simp [hx, hm]

theorem igContentBlock_content (c : String) (st : FormattedResults) :
    (igContentBlock c st).content = st.content := by
  unfold igContentBlock
  cases hx : st.social_links.instagram <;> cases hm : igFromContent c <;> simp [hx, hm]

theorem fbContentBlock_fb (c : String) (st : FormattedResults) :
    (fbContentBlock c st).social_links.facebook =
      match st.social_links.facebook with
      | some u => some u
      | none => fbFromContent c := by
  unfold fbContentBlock
  cases hx : st.social_links.facebook <;> cases hm : fbFromContent c <;> simp [hx, hm]

theorem fbContentBlock_x (c : String) (st : FormattedResults) :
    (fbContentBlock c st).social_links.x_twitter = st.social_links.x_twitter := by
  unfold fbContentBlock
  cases hx : st.social_links.facebook <;> cases hm : fbFromContent c <;> simp [hx, hm]

theorem fbContentBlock_ig (c : String) (st : FormattedResults) :
    (fbContentBlock c st).social_links.instagram = st.social_links.instagram := by
  unfold fbContentBlock
  cases hx : st.social_links.facebook <;> cases hm : fbFromContent c <;> simp [hx, hm]

theorem fbContentBlock_sources (c : String) (st : FormattedResults) :
    (fbContentBlock c st).sources = st.sources := by
  unfold fbContentBlock
  cases hx : st.social_links.facebook <;> cases hm : fbFromContent c <;> simp [hx, hm]

theorem fbContentBlock_content (c : String) (st : FormattedResults) :
    (fbContentBlock c st).content = st.content := by
  unfold fbContentBlock
  cases hx : st.social_links.facebook <;> cases hm : fbFromContent c <;> simp [hx, hm]

theorem sourceCheck_sources (st : FormattedResults) (r : SearchResult) :
    (sourceCheck st r).sources = st.sources ++ (sourceOf r).toList := by
  obtain ⟨md, mk⟩ := r
  rcases md with _ | ⟨u, t⟩
  · simp [sourceCheck, sourceOf]
  · rcases u with _ | u
    · simp [sourceCheck, sourceOf]
    · simp only [sourceCheck, sourceOf, Option.toList]
      split_ifs <;> simp

theorem sourceCheck_content (st : FormattedResults) (r : SearchResult) :
    (sourceCheck st r).content = st.content := by
  obtain ⟨md, mk⟩ := r
  rcases md with _ | ⟨u, t⟩
  · simp [sourceCheck]
  · rcases u with _ | u
    · simp [sourceCheck]
    · simp only [sourceCheck]
      split_ifs <;> simp

theorem sourceCheck_x (st : FormattedResults) (r : SearchResult) :
    (sourceCheck st r).social_links.x_twitter =
      match metaUrl r with
      | none => st.social_links.x_twitter
      | some url => if xUrlHit url then some url else st.social_links.x_twitter := by
  obtain ⟨md, mk⟩ := r
  rcases md with _ | ⟨u, t⟩
  · simp [sourceCheck, metaUrl]
  · rcases u with _ | u
    · simp [sourceCheck, metaUrl]
    · simp only [sourceCheck, metaUrl, Option.bind]
      split_ifs <;> simp

theorem sourceCheck_ig (st : FormattedResults) (r : SearchResult) :
    (sourceCheck st r).social_links.instagram =
      match metaUrl r with
      | none => st.social_links.instagram
      | some url =>
        if xUrlHit url then st.social_links.instagram
        else if igUrlHit url then some url
        else st.social_links.instagram := by
  obtain ⟨md, mk⟩ := r
  rcases md with _ | ⟨u, t⟩
  · simp [sourceCheck, metaUrl]
  · rcases u with _ | u
    · simp [sourceCheck, metaUrl]
    · simp only [sourceCheck, metaUrl, Option.bind]
      split_ifs <;> simp

theorem sourceCheck_fb (st : FormattedResults) (r : SearchResult) :
    (sourceCheck st r).social_links.facebook =
      match metaUrl r with
      | none => st.social_links.facebook
      | some url =>
        if xUrlHit url then st.social_links.facebook
        else if igUrlHit url then st.social_links.facebook
        else if fbUrlHit url then some url
        else st.social_links.facebook := by
  obtain ⟨md, mk⟩ := r
  rcases md with _ | ⟨u, t⟩
  · simp [sourceCheck, metaUrl]
  · rcases u with _ | u
    · simp [sourceCheck, metaUrl]
    · simp only [sourceCheck, metaUrl, Option.bind]
      split_ifs <;> simp

theorem sourceCheck_skip (st : FormattedResults) (r : SearchResult)
    (h : metaUrl r = none) : sourceCheck st r = st := by
  obtain ⟨md, mk⟩ := r
  rcases md with _ | ⟨u, t⟩
  · rfl
  · rcases u with _ | u
    · rfl
    · simp [metaUrl, Option.bind] at h

theorem contentCheck_sources (st : FormattedResults) (r : SearchResult) :
    (contentCheck st r).sources = st.sources := by
  unfold contentCheck
  rcases r.markdown with _ | c
  · rfl
  · rw [fbContentBlock_sources, igContentBlock_sources, xContentBlock_sources]

theorem contentCheck_content (st : FormattedResults) (r : SearchResult) :
    (contentCheck st r).content = st.content ++ r.markdown.toList := by
  unfold contentCheck
  rcases r.markdown with _ | c
  · simp
  · rw [fbContentBlock_content, igContentBlock_content, xContentBlock_content]
    rfl

theorem contentCheck_x (st : FormattedResults) (r : SearchResult) :
    (contentCheck st r).social_links.x_twitter =
      match st.social_links.x_twitter with
      | some u => some u
      | none => r.markdown.bind xFromContent := by
  unfold contentCheck
  rcases r.markdown with _ | c
  · cases st.social_links.x_twitter <;> simp
  · rw [fbContentBlock_x, igContentBlock_x, xContentBlock_x]
    cases st.social_links.x_twitter <;> simp

theorem contentCheck_ig (st : FormattedResults) (r : SearchResult) :
    (contentCheck st r).social_links.instagram =
      match st.social_links.instagram with
      | some u => some u
      | none => r.markdown.bind igFromContent := by
  unfold contentCheck
  rcases r.markdown with _ | c
  · cases st.social_links.instagram <;> simp
  · rw [fbContentBlock_ig, igContentBlock_ig, xContentBlock_ig]
    cases st.social_links.instagram <;> simp

theorem contentCheck_fb (st : FormattedResults) (r : SearchResult) :
    (contentCheck st r).social_links.facebook =
      match st.social_links.facebook with
      | some u => some u
      | none => r.markdown.bind fbFromContent := by
  unfold contentCheck
  rcases r.markdown with _ | c
  · cases st.social_links.facebook <;> simp
  · rw [fbContentBlock_fb, igContentBlock_fb, xContentBlock_fb]
    cases st.social_links.facebook <;> simp

theorem processResult_sources (st : FormattedResults) (r : SearchResult) :
    (processResult st r).sources = st.sources ++ (sourceOf r).toList := by
  rw [processResult, contentCheck_sources, sourceCheck_sources]

theorem processResult_content (st : FormattedResults) (r : SearchResult) :
    (processResult st r).content = st.content ++ r.markdown.toList := by
  rw [processResult, contentCheck_content, sourceCheck_content]

theorem processResult_x_keep (st : FormattedResults) (r : SearchResult) (u : String)
    (hst : st.social_links.x_twitter = some u)
    (h : ∀ url, metaUrl r = some url → xUrlHit url = false) :
    (processResult st r).social_links.x_twitter = some u := by
  rw [processResult, contentCheck_x]
  have hsc : (sourceCheck st r).social_links.x_twitter = some u := by
    rw [sourceCheck_x]
    cases hm : metaUrl r with
    | none => exact hst
    | some url => simp [h url hm, hst]
  rw [hsc]

theorem processResult_ig_keep (st : FormattedResults) (r : SearchResult) (u : String)
    (hst : st.social_links.instagram = some u)
    (h : ∀ url, metaUrl r = some url → (!xUrlHit url && igUrlHit url) = false) :
    (processResult st r).social_links.instagram = some u := by
  rw [processResult, contentCheck_ig]
  have hsc : (sourceCheck st r).social_links.instagram = some u := by
    rw [sourceCheck_ig]
    cases hm : metaUrl r with
    | none => exact hst
    | some url =>
      have hb := h url hm
      cases hx : xUrlHit url with
      | true => simp [hx, hst]
      | false =>
        cases hig : igUrlHit url with
        | true => rw [hx, hig] at hb; simp at hb
        | false => simp [hx, hig, hst]
  rw [hsc]

theorem processResult_fb_keep (st : FormattedResults) (r : SearchResult) (u : String)
    (hst : st.social_links.facebook = some u)
    (h : ∀ url, metaUrl r = some url → (!xUrlHit url && !igUrlHit url && fbUrlHit url) = false) :
    (processResult st r).social_links.facebook = some u := by
  rw [processResult, contentCheck_fb]
  have hsc : (sourceCheck st r).social_links.facebook = some u := by
    rw [sourceCheck_fb]
    cases hm : metaUrl r with
    | none => exact hst
    | some url =>
      have hb := h url hm
      cases hx : xUrlHit url with
      | true => simp [hx, hst]
      | false =>
        cases hig : igUrlHit url with
        | true => simp [hx, hig, hst]
        | false =>
          cases hfb : fbUrlHit url with
          | true => rw [hx, hig, hfb] at hb; simp at hb
          | false => simp [hx, hig, hfb, hst]
  rw [hsc]

theorem processResult_x_none (st : FormattedResults) (r : SearchResult)
    (hst : st.social_links.x_twitter = none)
    (h1 : ∀ url, metaUrl r = some url → xUrlHit url = false)
    (h2 : ∀ c, r.markdown = some c → xFromContent c = none) :
    (processResult st r).social_links.x_twitter = none := by
  rw [processResult, contentCheck_x]
  have hsc : (sourceCheck st r).social_links.x_twitter = none := by
    rw [sourceCheck_x]
    cases hm : metaUrl r with
    | none => exact hst
    | some url => simp [h1 url hm, hst]
  rw [hsc]
  cases hmk : r.markdown with
  | none => rfl
  | some c => simp [h2 c hmk]

theorem processResult_ig_none (st : FormattedResults) (r : SearchResult)
    (hst : st.social_links.instagram = none)
    (h1 : ∀ url, metaUrl r = some url → igUrlHit url = false)
    (h2 : ∀ c, r.markdown = some c → igFromContent c = none) :
    (processResult st r).social_links.instagram = none := by
  rw [processResult, contentCheck_ig]
  have hsc : (sourceCheck st r).social_links.instagram = none := by
    rw [sourceCheck_ig]
    cases hm : metaUrl r with
    | none => exact hst
    | some url =>
      cases hx : xUrlHit url <;> simp [hx, h1 url hm, hst]
  rw [hsc]
  cases hmk : r.markdown with
  | none => rfl
  | some c => simp [h2 c hmk]

theorem processResult_fb_none (st : FormattedResults) (r : SearchResult)
    (hst : st.social_links.facebook = none)
    (h1 : ∀ url, metaUrl r = some url → fbUrlHit url = false)
    (h2 : ∀ c, r.markdown = some c → fbFromContent c = none) :
    (processResult st r).social_links.facebook = none := by
  rw [processResult, contentCheck_fb]
  have hsc : (sourceCheck st r).social_links.facebook = none := by
    rw [sourceCheck_fb]
    cases hm : metaUrl r with
    | none => exact hst
    | some url =>
      cases hx : xUrlHit url <;> cases hig : igUrlHit url <;>
        simp [hx, hig, h1 url hm, hst]
  rw [hsc]
  cases hmk : r.markdown with
  | none => rfl
  | some c => simp [h2 c hmk]

theorem foldl_sources (rs : List SearchResult) (st : FormattedResults) :
    (rs.foldl processResult st).sources = st.sources ++ rs.filterMap sourceOf := by
  induction rs generalizing st with
  | nil => simp
  | cons r rest ih =>
    rw [List.foldl_cons, ih, processResult_sources, List.filterMap_cons]
    cases sourceOf r <;> simp

theorem foldl_content (rs : List SearchResult) (st : FormattedResults) :
    (rs.foldl processResult st).content = st.content ++ rs.filterMap SearchResult.markdown := by
  induction rs generalizing st with
  | nil => simp
  | cons r rest ih =>
    rw [List.foldl_cons, ih, processResult_content, List.filterMap_cons]
    cases r.markdown <;> simp

theorem foldl_x_keep (rs : List SearchResult) (st : FormattedResults) (u : String)
    (hst : st.social_links.x_twitter = some u)
    (h : ∀ r ∈ rs, ∀ url, metaUrl r = some url → xUrlHit url = false) :
    (rs.foldl processResult st).social_links.x_twitter = some u := by
  induction rs generalizing st with
  | nil => exact hst
  | cons r rest ih =>
    rw [List.foldl_cons]
    exact ih _ (processResult_x_keep st r u hst (h r (List.mem_cons_self r rest)))
      (fun q hq => h q (List.mem_cons_of_mem r hq))

theorem foldl_ig_keep (rs : List SearchResult) (st : FormattedResults) (u : String)
    (hst : st.social_links.instagram = some u)
    (h : ∀ r ∈ rs, ∀ url, metaUrl r = some url → (!xUrlHit url && igUrlHit url) = false) :
    (rs.foldl processResult st).social_links.instagram = some u := by
  induction rs generalizing st with
  | nil => exact hst
  | cons r rest ih =>
    rw [List.foldl_cons]
    exact ih _ (processResult_ig_keep st r u hst (h r (List.mem_cons_self r rest)))
      (fun q hq => h q (List.mem_cons_of_mem r hq))

theorem foldl_fb_keep (rs : List SearchResult) (st : FormattedResults) (u : String)
    (hst : st.social_links.facebook = some u)
    (h : ∀ r ∈ rs, ∀ url, metaUrl r = some url →
      (!xUrlHit url && !igUrlHit url && fbUrlHit url) = false) :
    (rs.foldl processResult st).social_links.facebook = some u := by
  induction rs generalizing st with
  | nil => exact hst
  | cons r rest ih =>
    rw [List.foldl_cons]
    exact ih _ (processResult_fb_keep st r u hst (h r (List.mem_cons_self r rest)))
      (fun q hq => h q (List.mem_cons_of_mem r hq))

theorem foldl_x_none (rs : List SearchResult) (st : FormattedResults)
    (hst : st.social_links.x_twitter = none)
    (h1 : ∀ r ∈ rs, ∀ url, metaUrl r = some url → xUrlHit url = false)
    (h2 : ∀ r ∈ rs, ∀ c, r.markdown = some c → xFromContent c = none) :
    (rs.foldl processResult st).social_links.x_twitter = none := by
  induction rs generalizing st with
  | nil => exact hst
  | cons r rest ih =>
    rw [List.foldl_cons]
    exact ih _
      (processResult_x_none st r hst (h1 r (List.mem_cons_self r rest))
        (h2 r (List.mem_cons_self r rest)))
      (fun q hq => h1 q (List.mem_cons_of_mem r hq))
      (fun q hq => h2 q (List.mem_cons_of_mem r hq))

theorem foldl_ig_none (rs : List SearchResult) (st : FormattedResults)
    (hst : st.social_links.instagram = none)
    (h1 : ∀ r ∈ rs, ∀ url, metaUrl r = some url → igUrlHit url = false)
    (h2 : ∀ r ∈ rs, ∀ c, r.markdown = some c → igFromContent c = none) :
    (rs.foldl processResult st).social_links.instagram = none := by
  induction rs generalizing st with
  | nil => exact hst
  | cons r rest ih =>
    rw [List.foldl_cons]
    exact ih _
      (processResult_ig_none st r hst (h1 r (List.mem_cons_self r rest))
        (h2 r (List.mem_cons_self r rest)))
      (fun q hq => h1 q (List.mem_cons_of_mem r hq))
      (fun q hq => h2 q (List.mem_cons_of_mem r hq))

theorem foldl_fb_none (rs : List SearchResult) (st : FormattedResults)
    (hst : st.social_links.facebook = none)
    (h1 : ∀ r ∈ rs, ∀ url, metaUrl r = some url → fbUrlHit url = false)
    (h2 : ∀ r ∈ rs, ∀ c, r.markdown = some c → fbFromContent c = none) :
    (rs.foldl processResult st).social_links.facebook = none := by
  induction rs generalizing st with
  | nil => exact hst
  | cons r rest ih =>
    rw [List.foldl_cons]
    exact ih _
      (processResult_fb_none st r hst (h1 r (List.mem_cons_self r rest))
        (h2 r (List.mem_cons_self r rest)))
      (fun q hq => h1 q (List.mem_cons_of_mem r hq))
      (fun q hq => h2 q (List.mem_cons_of_mem r hq))

/-! ## Lemmas about snippet deduplication -/

theorem mem_foldl_dedup (x : String) (l : List String) (acc : List String)
    (hx : x ∈ acc) : x ∈ l.foldl dedupStep acc := by
  induction l generalizing acc with
  | nil => exact hx
  | cons s rest ih =>
    rw [List.foldl_cons]
    apply ih
    unfold dedupStep
    split
    · exact hx
    · exact List.mem_append_left _ hx

theorem pairwise_foldl_dedup (l : List String) (acc : List String)
    (hacc : acc.Pairwise (fun a b => is_similar_text b a (7/10) = false)) :
    (l.foldl dedupStep acc).Pairwise (fun a b => is_similar_text b a (7/10) = false) := by
  induction l generalizing acc with
  | nil => exact hacc
  | cons s rest ih =>
    rw [List.foldl_cons]
    apply ih
    unfold dedupStep
    split
    · exact hacc
    · rename_i hany
      rw [List.pairwise_append]
      refine ⟨hacc, List.pairwise_singleton _ _, ?_⟩
      intro a ha b hb
      rw [List.mem_singleton] at hb
      subst hb
      rw [Bool.not_eq_true, List.any_eq_false] at hany
      simpa using hany a ha

theorem cover_foldl_dedup (l : List String) (acc : List String) (s : String) :
    s ∈ l →
      s ∈ l.foldl dedupStep acc ∨
        ∃ info ∈ l.foldl dedupStep acc, is_similar_text s info (7/10) = true := by
  induction l generalizing acc with
  | nil => intro hs; cases hs
  | cons r rest ih =>
    intro hs
    rw [List.mem_cons] at hs
    rw [List.foldl_cons]
    rcases hs with hs | hs
    · subst hs
      by_cases hany : (acc.any (fun info => is_similar_text s info (7/10))) = true
      · rw [List.any_eq_true] at hany
        obtain ⟨info, hinfo, hsim⟩ := hany
        right
        refine ⟨info, ?_, hsim⟩
        apply mem_foldl_dedup
        unfold dedupStep
        split
        · exact hinfo
        · exact List.mem_append_left _ hinfo
      · left
        apply mem_foldl_dedup
        unfold dedupStep
        rw [Bool.not_eq_true] at hany
        rw [if_neg (by rw [hany]; exact Bool.false_ne_true)]
        exact List.mem_append_right _ (List.mem_singleton_self s)
    · exact ih _ hs

theorem sublist_foldl_dedup (l : List String) (acc : List String) :
    List.Sublist (l.foldl dedupStep acc) (acc ++ l) := by
  induction l generalizing acc with
  | nil => simp
  | cons s rest ih =>
    rw [List.foldl_cons]
    refine List.Sublist.trans (ih (dedupStep acc s)) ?_
    unfold dedupStep
    split
    · exact List.Sublist.append_left (List.sublist_cons_self s rest) acc
    · rw [List.append_assoc]
      simp

/-! ## Lemmas about is_similar_text -/

theorem is_similar_text_symm (a b : String) (t : ℚ) :
    is_similar_text a b t = is_similar_text b a t := by
  simp only [is_similar_text]
  split_ifs <;> try tauto
  rw [Finset.inter_comm, min_comm]

theorem is_similar_text_empty (a b : String) (t : ℚ)
    (h : a = "" ∨ b = "" ∨ lowerWords a = ∅ ∨ lowerWords b = ∅) :
    is_similar_text a b t = false := by
  simp only [is_similar_text]
  split_ifs <;> tauto

/-! ## Claim theorems -/

/-- C1 counterexample: the claim that a social-media platform slot, once
assigned, is never replaced by a later result is false.  After a single
result whose metadata URL is https://twitter.com/a the x_twitter slot
holds that URL, but appending a second result whose metadata URL is
https://twitter.com/b leaves the slot holding the second URL: the
direct-URL substring check assigns unconditionally and overwrites the
earlier value. -/
theorem xSlotOverwrittenByLaterDirectUrl :
    (formatSearchResults "q" "n"
      [⟨some ⟨some "https://twitter.com/a", some "t1"⟩, none⟩]).social_links.x_twitter
      = some "https://twitter.com/a" ∧
    (formatSearchResults "q" "n"
      [⟨some ⟨some "https://twitter.com/a", some "t1"⟩, none⟩,
       ⟨some ⟨some "https://twitter.com/b", some "t2"⟩, none⟩]).social_links.x_twitter
      = some "https://twitter.com/b" := by
  exact ⟨by decide, by decide⟩

/-- C1 amended: once a platform slot has been assigned a URL, no later
result replaces it through the content-regex path or through a direct-URL
check for a different platform; only a later result whose metadata URL
passes the direct-URL substring check of the same platform overwrites the
slot.  Formally: if after a prefix of the result sequence a slot holds u,
and no result of the remaining suffix has a metadata URL passing that
platform's direct assignment condition, the slot still holds u at the
end. -/
theorem filledSlotSurvivesNonDirectResults (q n : String) (rs1 rs2 : List SearchResult)
    (u : String) :
    ((formatSearchResults q n rs1).social_links.x_twitter = some u →
      (∀ r ∈ rs2, ∀ url, metaUrl r = some url → xUrlHit url = false) →
      (formatSearchResults q n (rs1 ++ rs2)).social_links.x_twitter = some u) ∧
    ((formatSearchResults q n rs1).social_links.instagram = some u →
      (∀ r ∈ rs2, ∀ url, metaUrl r = some url → (!xUrlHit url && igUrlHit url) = false) →
      (formatSearchResults q n (rs1 ++ rs2)).social_links.instagram = some u) ∧
    ((formatSearchResults q n rs1).social_links.facebook = some u →
      (∀ r ∈ rs2, ∀ url, metaUrl r = some url →
        (!xUrlHit url && !igUrlHit url && fbUrlHit url) = false) →
      (formatSearchResults q n (rs1 ++ rs2)).social_links.facebook = some u) := by
  refine ⟨?_, ?_, ?_⟩
  · intro h1 h2
    rw [formatSearchResults, List.foldl_append]
    rw [formatSearchResults] at h1
    exact foldl_x_keep rs2 _ u h1 h2
  · intro h1 h2
    rw [formatSearchResults, List.foldl_append]
    rw [formatSearchResults] at h1
    exact foldl_ig_keep rs2 _ u h1 h2
  · intro h1 h2
    rw [formatSearchResults, List.foldl_append]
    rw [formatSearchResults] at h1
    exact foldl_fb_keep rs2 _ u h1 h2

/-- Witness for the amended C1 theorem: a filled x_twitter slot survives a
later result whose URL is an Instagram link. -/
theorem filledSlotSurvivesNonDirectResultsWitness :
    (formatSearchResults "q" "n"
      ([⟨some ⟨some "https://twitter.com/a", some "t"⟩, none⟩] ++
       [⟨some ⟨some "https://instagram.com/c", some "t2"⟩, none⟩])).social_links.x_twitter
      = some "https://twitter.com/a" := by
  apply (filledSlotSurvivesNonDirectResults "q" "n" _ _ _).1
  · decide
  · intro r hr url hurl
    simp only [List.mem_singleton] at hr
    subst hr
    simp only [metaUrl, Option.bind] at hurl
    cases hurl
    decide

/-- C5: the extraction loop of search_for_person is a total function of
the upstream result list (it is defined for every list of result
dictionaries, including results with empty content, missing metadata or
url or title keys, and missing markdown keys), and for each platform,
when no result's metadata URL passes that platform's substring check and
no result's content has a regex match for it, the platform slot of the
output is still None (not found). -/
theorem degenerateResultsDefaultToNotFound (q n : String) (rs : List SearchResult) :
    ((∀ r ∈ rs, ∀ url, metaUrl r = some url → xUrlHit url = false) →
      (∀ r ∈ rs, ∀ c, r.markdown = some c → xFromContent c = none) →
      (formatSearchResults q n rs).social_links.x_twitter = none) ∧
    ((∀ r ∈ rs, ∀ url, metaUrl r = some url → igUrlHit url = false) →
      (∀ r ∈ rs, ∀ c, r.markdown = some c → igFromContent c = none) →
      (formatSearchResults q n rs).social_links.instagram = none) ∧
    ((∀ r ∈ rs, ∀ url, metaUrl r = some url → fbUrlHit url = false) →
      (∀ r ∈ rs, ∀ c, r.markdown = some c → fbFromContent c = none) →
      (formatSearchResults q n rs).social_links.facebook = none) := by
  refine ⟨?_, ?_, ?_⟩
  · intro h1 h2
    exact foldl_x_none rs (initResults q n) rfl h1 h2
  · intro h1 h2
    exact foldl_ig_none rs (initResults q n) rfl h1 h2
  · intro h1 h2
    exact foldl_fb_none rs (initResults q n) rfl h1 h2

/-- Witness for C5 on a degenerate result list: a result with no keys at
all, a result with metadata lacking the url key and an empty content
string, and a result with a non-social URL, no title, and content in
which no platform regex matches.  All three slots come out None. -/
theorem degenerateResultsDefaultToNotFoundWitness :
    (formatSearchResults "q" "Jane"
      [⟨none, none⟩,
       ⟨some ⟨none, some "t"⟩, some ""⟩,
       ⟨some ⟨some "https://example.com/page", none⟩, some "no links here"⟩]).social_links.x_twitter = none ∧
    (formatSearchResults "q" "Jane"
      [⟨none, none⟩,
       ⟨some ⟨none, some "t"⟩, some ""⟩,
       ⟨some ⟨some "https://example.com/page", none⟩, some "no links here"⟩]).social_links.instagram = none ∧
    (formatSearchResults "q" "Jane"
      [⟨none, none⟩,
       ⟨some ⟨none, some "t"⟩, some ""⟩,
       ⟨some ⟨some "https://example.com/page", none⟩, some "no links here"⟩]).social_links.facebook = none := by
  have h := degenerateResultsDefaultToNotFound "q" "Jane"
    [⟨none, none⟩,
     ⟨some ⟨none, some "t"⟩, some ""⟩,
     ⟨some ⟨some "https://example.com/page", none⟩, some "no links here"⟩]
  refine ⟨h.1 ?_ ?_, h.2.1 ?_ ?_, h.2.2 ?_ ?_⟩ <;>
  · intro r hr a ha
    simp only [List.mem_cons, List.not_mem_nil, or_false] at hr
    rcases hr with rfl | rfl | rfl <;>
      (try simp only [metaUrl, Option.bind] at ha) <;>
      (try cases ha) <;> decide

/-- C6: within the content part of a loop iteration, a regex match found
in a result's text is assigned to a platform slot only when the slot is
still empty at that point, that is only when the direct-URL check (of
this and of every earlier result) and every earlier regex match found
nothing for that platform: the content step never changes a non-empty
slot. -/
theorem regexOnlyFillsEmptySlot (st : FormattedResults) (r : SearchResult) :
    ((contentCheck st r).social_links.x_twitter ≠ st.social_links.x_twitter →
      st.social_links.x_twitter = none) ∧
    ((contentCheck st r).social_links.instagram ≠ st.social_links.instagram →
      st.social_links.instagram = none) ∧
    ((contentCheck st r).social_links.facebook ≠ st.social_links.facebook →
      st.social_links.facebook = none) := by
  refine ⟨?_, ?_, ?_⟩
  · intro hne
    cases hx : st.social_links.x_twitter with
    | none => rfl
    | some u => exact absurd (by rw [contentCheck_x, hx]) hne
  · intro hne
    cases hx : st.social_links.instagram with
    | none => rfl
    | some u => exact absurd (by rw [contentCheck_ig, hx]) hne
  · intro hne
    cases hx : st.social_links.facebook with
    | none => rfl
    | some u => exact absurd (by rw [contentCheck_fb, hx]) hne

/-- Witness for C6: the content step does change the x_twitter slot of the
initial state on a result whose markdown holds a Twitter link, and indeed
the slot was empty before. -/
theorem regexOnlyFillsEmptySlotWitness :
    (initResults "" "").social_links.x_twitter = none :=
  (regexOnlyFillsEmptySlot (initResults "" "")
    ⟨none, some "https://twitter.com/bob"⟩).1 (by decide)

/-- C8: the sources list of the formatted results preserves discovery
order: it is exactly the in-order projection of the upstream result
sequence to those results carrying a metadata URL, one source entry per
such result. -/
theorem sourcesInDiscoveryOrder (q n : String) (rs : List SearchResult) :
    (formatSearchResults q n rs).sources = rs.filterMap sourceOf := by
  rw [formatSearchResults, foldl_sources]
  rfl

/-- C9: a result without a metadata url contributes nothing to the source
half of the iteration (no sources entry, no direct-URL check, the state is
untouched), yet its markdown content is still appended; consequently on a
concrete two-result sequence whose first result has content but no
metadata the content list is longer than the sources list, the first
content item comes from the first result, and the first source comes from
the second result. -/
theorem metadataMissingContentStillCollected :
    (∀ (st : FormattedResults) (r : SearchResult), metaUrl r = none →
      sourceCheck st r = st ∧
      (processResult st r).sources = st.sources ∧
      (processResult st r).content = st.content ++ r.markdown.toList) ∧
    ((formatSearchResults "" ""
        [⟨none, some "c1"⟩, ⟨some ⟨some "u2", some "t2"⟩, some "c2"⟩]).sources.length <
      (formatSearchResults "" ""
        [⟨none, some "c1"⟩, ⟨some ⟨some "u2", some "t2"⟩, some "c2"⟩]).content.length ∧
      (formatSearchResults "" ""
        [⟨none, some "c1"⟩, ⟨some ⟨some "u2", some "t2"⟩, some "c2"⟩]).content.head? = some "c1" ∧
      (formatSearchResults "" ""
        [⟨none, some "c1"⟩, ⟨some ⟨some "u2", some "t2"⟩, some "c2"⟩]).sources.head?
        = some ⟨"u2", "t2"⟩) := by
  constructor
  · intro st r h
    refine ⟨sourceCheck_skip st r h, ?_, processResult_content st r⟩
    rw [processResult_sources]
    have hso : sourceOf r = none := by
      obtain ⟨md, mk⟩ := r
      rcases md with _ | ⟨uu, tt⟩
      · rfl
      · rcases uu with _ | uu
        · rfl
        · simp [metaUrl, Option.bind] at h
    rw [hso]
    simp
  · exact ⟨by decide, by decide, by decide⟩

/-- Witness for C9: on a result with no metadata key the source step is
the identity on the initial state. -/
theorem metadataMissingContentStillCollectedWitness :
    sourceCheck (initResults "" "") ⟨none, some "body"⟩ = initResults "" "" :=
  (metadataMissingContentStillCollected.1 (initResults "" "") ⟨none, some "body"⟩ rfl).1

/-- C2: the deduplication of free-text snippets in find_info_by_username.
The retained list is an in-order sub-sequence of the input, no retained
snippet has word-overlap similarity above the fixed threshold 0.7 with any
earlier retained snippet (the comparison was made against every previously
retained snippet and would have discarded it), and every input snippet is
either retained or similar above the threshold to some retained snippet
that preceded its consideration. -/
theorem dedupDropsSimilarLaterSnippets (snips : List String) :
    List.Sublist (dedupSnippets snips) snips ∧
    List.Pairwise (fun a b => is_similar_text b a (7/10) = false) (dedupSnippets snips) ∧
    (∀ s ∈ snips, s ∈ dedupSnippets snips ∨
      ∃ info ∈ dedupSnippets snips, is_similar_text s info (7/10) = true) := by
  refine ⟨?_, ?_, ?_⟩
  · have h := sublist_foldl_dedup snips []
    simpa using h
  · exact pairwise_foldl_dedup snips [] List.Pairwise.nil
  · intro s hs
    exact cover_foldl_dedup snips [] s hs

/-- Witness for C2 at a concrete snippet list. -/
theorem dedupDropsSimilarLaterSnippetsWitness :
    "alpha beta gamma epsilon" ∈
        dedupSnippets ["alpha beta gamma delta", "alpha beta gamma epsilon"] ∨
      ∃ info ∈ dedupSnippets ["alpha beta gamma delta", "alpha beta gamma epsilon"],
        is_similar_text "alpha beta gamma epsilon" info (7/10) = true :=
  (dedupDropsSimilarLaterSnippets
    ["alpha beta gamma delta", "alpha beta gamma epsilon"]).2.2
    "alpha beta gamma epsilon" (by simp)

/-- C10: is_similar_text is symmetric in its two text arguments for every
threshold, and returns false whenever either argument is the empty string
or contains no words. -/
theorem isSimilarTextSymmetricAndEmptyFalse (a b : String) (t : ℚ) :
    is_similar_text a b t = is_similar_text b a t ∧
    ((a = "" ∨ b = "" ∨ lowerWords a = ∅ ∨ lowerWords b = ∅) →
      is_similar_text a b t = false) :=
  ⟨is_similar_text_symm a b t, is_similar_text_empty a b t⟩

/-- Witness for C10: an empty first argument gives false. -/
theorem isSimilarTextSymmetricAndEmptyFalseWitness :
    is_similar_text "" "hello world" (1/2) = false :=
  (isSimilarTextSymmetricAndEmptyFalse "" "hello world" (1/2)).2 (Or.inl rfl)

/-- C3: when the upstream Actor responds with any non-200 status, the
client search raises an exception whose message carries the upstream
status code and body text, and both the /search and the /raw-search
endpoint convert that failure into a 500 error response whose body is
only that error message, with no partial result payload. -/
theorem upstreamErrorBecomesClientError (resp : HttpResponse) (pd : PersonRequestBody)
    (rd : RawRequestBody) (nm qr : String) (hs : resp.status ≠ 200) :
    clientSearch resp =
      Except.error ("Error " ++ toString resp.status ++ ": " ++ resp.text) ∧
    (pd.name = some nm →
      searchPersonEndpoint (some pd) resp =
        ⟨500, RespBody.errorMsg ("Error " ++ toString resp.status ++ ": " ++ resp.text),
          true⟩) ∧
    (rd.query = some qr →
      rawSearchEndpoint (some rd) resp =
        ⟨500, RespBody.errorMsg ("Error " ++ toString resp.status ++ ": " ++ resp.text),
          true⟩) := by
  have hb : (resp.status == 200) = false := by
    simp [hs]
  refine ⟨?_, ?_, ?_⟩
  · simp [clientSearch, hb]
  · intro hn
    simp [searchPersonEndpoint, hn, searchForPerson, clientSearch, hb]
  · intro hq
    simp [rawSearchEndpoint, hq, clientSearch, hb]

/-- Witness for C3 at a concrete upstream 500 response. -/
theorem upstreamErrorBecomesClientErrorWitness :
    searchPersonEndpoint (some ⟨some "Jane", none, none⟩)
        ⟨500, "Internal Server Error", []⟩ =
      ⟨500, RespBody.errorMsg ("Error " ++ toString (500 : Nat) ++ ": " ++
        "Internal Server Error"), true⟩ ∧
    rawSearchEndpoint (some ⟨some "jane smith", none, none, none, none, none, none, none⟩)
        ⟨500, "Internal Server Error", []⟩ =
      ⟨500, RespBody.errorMsg ("Error " ++ toString (500 : Nat) ++ ": " ++
        "Internal Server Error"), true⟩ := by
  have h := upstreamErrorBecomesClientError ⟨500, "Internal Server Error", []⟩
    ⟨some "Jane", none, none⟩ ⟨some "jane smith", none, none, none, none, none, none, none⟩
    "Jane" "jane smith" (by decide)
  exact ⟨h.2.1 rfl, h.2.2 rfl⟩

/-- C4: a missing JSON body or a body missing the required field (name
for /search, query for /raw-search) is rejected with a 400 error response
and the upstream search client is never called. -/
theorem missingRequiredFieldRejected (resp : HttpResponse)
    (pd : Option PersonRequestBody) (rd : Option RawRequestBody) :
    ((pd = none ∨ ∃ d, pd = some d ∧ d.name = none) →
      searchPersonEndpoint pd resp =
        ⟨400, RespBody.errorMsg "Please provide a \x27name\x27 in the request body",
          false⟩) ∧
    ((rd = none ∨ ∃ d, rd = some d ∧ d.query = none) →
      rawSearchEndpoint rd resp =
        ⟨400, RespBody.errorMsg "Please provide a \x27query\x27 in the request body",
          false⟩) := by
  constructor
  · rintro (rfl | ⟨d, rfl, hd⟩)
    · rfl
    · simp [searchPersonEndpoint, hd]
  · rintro (rfl | ⟨d, rfl, hd⟩)
    · rfl
    · simp [rawSearchEndpoint, hd]

/-- Witness for C4: a missing body on /search and a body without the
query key on /raw-search are both rejected with 400 and no upstream
call. -/
theorem missingRequiredFieldRejectedWitness :
    searchPersonEndpoint none ⟨200, "", []⟩ =
      ⟨400, RespBody.errorMsg "Please provide a \x27name\x27 in the request body",
        false⟩ ∧
    rawSearchEndpoint (some ⟨none, none, none, none, none, none, none, none⟩)
        ⟨200, "", []⟩ =
      ⟨400, RespBody.errorMsg "Please provide a \x27query\x27 in the request body",
        false⟩ :=
  ⟨(missingRequiredFieldRejected ⟨200, "", []⟩ none
      (some ⟨none, none, none, none, none, none, none, none⟩)).1 (Or.inl rfl),
   (missingRequiredFieldRejected ⟨200, "", []⟩ none
      (some ⟨none, none, none, none, none, none, none, none⟩)).2
      (Or.inr ⟨_, rfl, rfl⟩)⟩

/-- C7: on an upstream 200 response the /raw-search endpoint returns the
upstream result sequence passed through unchanged, whatever the requested
output_format (in particular markdown or text): each returned object is
exactly an upstream object, so a markdown field is exposed exactly when
the upstream object carries one and is never fabricated. -/
theorem rawSearchPassesResultsThrough (resp : HttpResponse) (d : RawRequestBody)
    (qr : String) (hq : d.query = some qr) (hs : resp.status = 200) :
    rawSearchEndpoint (some d) resp = ⟨200, RespBody.raw resp.json, true⟩ := by
  simp [rawSearchEndpoint, hq, clientSearch, hs]

/-- Witness for C7: a text-format request passes through a result list in
which one object has a markdown field and the other has none, unchanged. -/
theorem rawSearchPassesResultsThroughWitness :
    rawSearchEndpoint
      (some ⟨some "jon", none, none, some "text", none, none, none, none⟩)
      ⟨200, "",
        [⟨some ⟨some "https://example.com", some "Ex"⟩, some "md body"⟩,
         ⟨some ⟨some "https://example.org", some "Org"⟩, none⟩]⟩ =
      ⟨200, RespBody.raw
        [⟨some ⟨some "https://example.com", some "Ex"⟩, some "md body"⟩,
         ⟨some ⟨some "https://example.org", some "Org"⟩, none⟩], true⟩ :=
  rawSearchPassesResultsThrough _ _ "jon" rfl rfl
